import Mathlib

/-!
Shallow embedding of the Vartalaap voice-bot platform, checked against its
specification.  The repository ships the admin web frontend (TypeScript) and
the product documents; the per-call conversation engine (availability engine,
slot store, language detector) is described by the spec but its Python source
is not part of this snapshot, so those components are modelled from the spec
and marked as such in their doc comments.  All other definitions are direct
translations of the TypeScript sources under `src/web`.
-/

namespace Vartalaap

/-! ## String primitives

Computable embeddings of the JavaScript string primitives the sources use
(`split` on a one-character separator, `startsWith`, `toLowerCase`), defined
by structural recursion on the character list so they evaluate inside
proofs. -/

/-- Split a character list at every occurrence of `sep`; the JS
`String.prototype.split` semantics (an empty input yields one empty part). -/
def splitOnCharAux (sep : Char) : List Char → List Char → List (List Char)
  | [], acc => [acc.reverse]
  | c :: rest, acc =>
    if c = sep then acc.reverse :: splitOnCharAux sep rest []
    else splitOnCharAux sep rest (c :: acc)

/-- JS `s.split(sep)` for a one-character separator. -/
def jsSplit (sep : Char) (s : String) : List String :=
  (splitOnCharAux sep s.toList []).map String.mk

/-- Whether `pre` is an initial segment of `cs`. -/
def startsWithList : List Char → List Char → Bool
  | [], _ => true
  | _ :: _, [] => false
  | p :: ps, c :: cs => p = c && startsWithList ps cs

/-- JS `s.startsWith(pre)`. -/
def strStartsWith (s pre : String) : Bool :=
  startsWithList pre.toList s.toList

/-- JS `s.toLowerCase()` (ASCII range, which is all the sources compare). -/
def strToLower (s : String) : String :=
  String.mk (s.toList.map Char.toLower)

/-! ## Availability engine (spec §4.3) -/

/-- Modelled from the spec: one existing confirmed booking considered by the
availability engine. `date` is a day index (weekday = `date % 7`), `time` is
minutes since midnight. The engine source is not in this repository snapshot. -/
structure Booking where
  date : Nat
  time : Nat
  partySize : Nat
deriving Repr, DecidableEq

/-- Modelled from the spec: the immutable-for-the-call `BusinessRuleSet`
(§3): operating hours per weekday (`none` = weekday marked closed), closed
dates, capacity, dining window, buffer, advance-booking bounds, party-size
limits, peak windows.  The engine source is not in this repository snapshot. -/
structure BusinessRuleSet where
  closedDates : List Nat
  hours : Fin 7 → Option (Nat × Nat)
  totalSeats : Nat
  diningWindowMinutes : Nat
  bufferMinutes : Nat
  minAdvanceBookingMinutes : Nat
  maxAdvanceBookingDays : Nat
  maxPhonePartySize : Nat
  peakWindows : List (Nat × Nat)
  peakMaxPartySize : Nat

/-- Modelled from the spec: the `AvailabilityResult` outcome vocabulary (§3). -/
inductive AvailabilityResult where
  | available
  | rejectedClosed
  | rejectedOutsideHours
  | rejectedTooSoon
  | rejectedPartyTooLarge
  | rejectedCapacity (suggestions : List Nat)
deriving Repr, DecidableEq

/-- Weekday of a day index. -/
def weekday (date : Nat) : Fin 7 := ⟨date % 7, Nat.mod_lt _ (by decide)⟩

/-- Absolute minutes of a requested start. -/
def startAbs (date time : Nat) : Nat := date * 1440 + time

/-- Modelled from the spec: rule 1 — date in `closedDates` or weekday marked
closed. -/
def closedFail (r : BusinessRuleSet) (date : Nat) : Bool :=
  r.closedDates.contains date || (r.hours (weekday date)).isNone

/-- Modelled from the spec: rule 2 — requested time outside that weekday's
operating window. -/
def hoursFail (r : BusinessRuleSet) (date time : Nat) : Bool :=
  match r.hours (weekday date) with
  | none => true
  | some (o, c) => !(decide (o ≤ time) && decide (time ≤ c))

/-- Modelled from the spec: rule 3 — requested start outside
`[now + minAdvanceBookingMinutes, now + maxAdvanceBookingDays]`. -/
def advanceFail (r : BusinessRuleSet) (now date time : Nat) : Bool :=
  !(decide (now + r.minAdvanceBookingMinutes ≤ startAbs date time) &&
    decide (startAbs date time ≤ now + r.maxAdvanceBookingDays * 1440))

/-- Modelled from the spec: whether the requested time falls in a configured
peak window. -/
def inPeak (r : BusinessRuleSet) (time : Nat) : Bool :=
  r.peakWindows.any (fun w => decide (w.1 ≤ time) && decide (time ≤ w.2))

/-- Modelled from the spec: rule 4 — party size above `maxPhonePartySize`, or
above the stricter `peakMaxPartySize` inside a peak window. -/
def partyFail (r : BusinessRuleSet) (time size : Nat) : Bool :=
  !(decide (size ≤ r.maxPhonePartySize)) ||
    (inPeak r time && !(decide (size ≤ r.peakMaxPartySize)))

/-- Occupancy interval `[start, start + diningWindow + buffer)` of a seating. -/
def occupancyWindow (r : BusinessRuleSet) (date time : Nat) : Nat × Nat :=
  (startAbs date time, startAbs date time + r.diningWindowMinutes + r.bufferMinutes)

/-- Half-open interval overlap. -/
def overlaps (a b : Nat × Nat) : Bool :=
  decide (a.1 < b.2) && decide (b.1 < a.2)

/-- Modelled from the spec: total party size of existing confirmed bookings
whose occupancy interval overlaps the requested one. -/
def overlappingLoad (r : BusinessRuleSet) (bookings : List Booking)
    (date time : Nat) : Nat :=
  (bookings.filter
      (fun b => overlaps (occupancyWindow r b.date b.time) (occupancyWindow r date time))).foldl
    (fun acc b => acc + b.partySize) 0

/-- Modelled from the spec: rule 5 — existing overlapping load plus the new
request exceeds `totalSeats`. -/
def capacityFail (r : BusinessRuleSet) (bookings : List Booking)
    (date time size : Nat) : Bool :=
  !(decide (overlappingLoad r bookings date time + size ≤ r.totalSeats))

/-- Modelled from the spec: nearest earlier 30-minute-granularity time that
passes the capacity check. -/
def suggestEarlier (r : BusinessRuleSet) (bookings : List Booking)
    (date time size : Nat) : Option Nat :=
  ((List.range 48).map (fun k => (k + 1) * 30)).findSome?
    (fun d =>
      if decide (d ≤ time) && !(capacityFail r bookings date (time - d) size) then
        some (time - d)
      else none)

/-- Modelled from the spec: nearest later 30-minute-granularity time (still on
the same day) that passes the capacity check. -/
def suggestLater (r : BusinessRuleSet) (bookings : List Booking)
    (date time size : Nat) : Option Nat :=
  ((List.range 48).map (fun k => (k + 1) * 30)).findSome?
    (fun d =>
      if decide (time + d < 1440) && !(capacityFail r bookings date (time + d) size) then
        some (time + d)
      else none)

/-- Modelled from the spec: up to two alternative times — nearest earlier and
nearest later slot passing the capacity check. -/
def suggestions (r : BusinessRuleSet) (bookings : List Booking)
    (date time size : Nat) : List Nat :=
  (suggestEarlier r bookings date time size).toList ++
    (suggestLater r bookings date time size).toList

/-- First failing check wins; an empty list of checks means success. -/
def firstFailure : List (Bool × AvailabilityResult) → AvailabilityResult
  | [] => .available
  | (b, code) :: rest => if b then code else firstFailure rest

/-- Modelled from the spec: `check(rules, existingBookings, date, time,
partySize)` evaluates the five rules in the fixed spec order with
first-failure short-circuit (§4.3).  `now` is the engine's clock input for the
advance-booking rule. -/
def check (r : BusinessRuleSet) (bookings : List Booking)
    (now date time size : Nat) : AvailabilityResult :=
  firstFailure
    [(closedFail r date, .rejectedClosed),
     (hoursFail r date time, .rejectedOutsideHours),
     (advanceFail r now date time, .rejectedTooSoon),
     (partyFail r time size, .rejectedPartyTooLarge),
     (capacityFail r bookings date time size,
       .rejectedCapacity (suggestions r bookings date time size))]

/-- Modelled from the spec: the per-call state visible to the engine — the
rule set and the snapshot of existing confirmed bookings.  The engine is "a
pure decision function ... without side effects", so a call returns the state
unchanged. -/
structure EngineState where
  rules : BusinessRuleSet
  bookings : List Booking

/-- Modelled from the spec: consulting the engine inside a session: it
computes `check` on the snapshot and mutates nothing. -/
def checkInSession (st : EngineState) (now date time size : Nat) :
    AvailabilityResult × EngineState :=
  (check st.rules st.bookings now date time size, st)

/-! ## Slot store (spec §4.2) -/

/-- Modelled from the spec: the five booking slot fields of `SlotSet` (§3).
The slot-store source is not in this repository snapshot. -/
inductive SlotField where
  | partySize
  | date
  | time
  | customerName
  | specialRequests
deriving Repr, DecidableEq

/-- Modelled from the spec: a slot value — party size is an integer, the
other fields are text. -/
inductive SlotValue where
  | int (n : Int)
  | str (s : String)
deriving Repr, DecidableEq

/-- Modelled from the spec: the structured booking state — each field nullable
until set. -/
def SlotSet : Type := SlotField → Option SlotValue

/-- Modelled from the spec: the typed partial field-set returned by the
extraction step — `none` means "field not mentioned in this utterance". -/
def Extraction : Type := SlotField → Option SlotValue

/-- Modelled from the spec: changeset entries — a fresh `set`, or a
`corrected` overwrite of a differing existing value. -/
inductive ChangeKind where
  | set
  | corrected
deriving Repr, DecidableEq

/-- The five slot fields, enumerated. -/
def allSlotFields : List SlotField :=
  [.partySize, .date, .time, .customerName, .specialRequests]

/-- Modelled from the spec: `applyExtraction(fields) → changeset` — each field
present in the extraction overwrites (marked `corrected` when a differing
value existed, `set` otherwise); absent fields are untouched. -/
def applyExtraction (s : SlotSet) (e : Extraction) :
    SlotSet × List (SlotField × ChangeKind) :=
  (fun f =>
      match e f with
      | some v => some v
      | none => s f,
   allSlotFields.filterMap
     (fun f =>
       match e f, s f with
       | some v, some old => some (f, if v = old then .set else .corrected)
       | some _, none => some (f, .set)
       | none, _ => none))

/-- Applying a finite sequence of extractions in order. -/
def applySeq (s : SlotSet) (es : List Extraction) : SlotSet :=
  es.foldl (fun acc e => (applyExtraction acc e).1) s

/-- The last asserted value for a field across a sequence of extractions
(later extractions take precedence). -/
def lastAsserted (es : List Extraction) (f : SlotField) : Option SlotValue :=
  match es with
  | [] => none
  | e :: rest =>
    match lastAsserted rest f with
    | some v => some v
    | none => e f

/-! ## Language detector and filler handling (spec §4.1) -/

/-- Modelled from the spec: the language labels. -/
inductive Lang where
  | hindi
  | english
  | hinglish
deriving Repr, DecidableEq

/-- Modelled from the spec: the fixed stoplist of filler tokens —
acknowledgements and hesitation sounds.  The detector source is not in this
repository snapshot. -/
def fillerStoplist : List String :=
  ["haan", "haanji", "ji", "ok", "okay", "hmm", "hm", "umm", "um", "uh",
   "huh", "achha", "accha", "theek", "thik", "right", "yeah"]

/-- Lower-cased whitespace tokenization of an utterance. -/
def tokenize (u : String) : List String :=
  (jsSplit ' ' (strToLower u)).filter (fun t => t ≠ "")

/-- Modelled from the spec: an utterance composed solely of stoplisted filler
tokens. -/
def fillerOnly (u : String) : Bool :=
  (tokenize u).all (fun t => fillerStoplist.contains t)

/-- A character of the Devanagari block. -/
def isDevanagariChar (c : Char) : Bool :=
  decide (0x900 ≤ c.toNat) && decide (c.toNat ≤ 0x97F)

/-- Modelled from the spec: classification of a substantive (non-filler)
utterance into `hindi`/`english`/`hinglish` with a confidence score, by the
script mix of its tokens. -/
def classify (u : String) : Lang × ℚ :=
  let ts := tokenize u
  let dev := ts.countP (fun t => t.toList.any isDevanagariChar)
  let lat := ts.length - dev
  if ts.length = 0 then (.hindi, 0)
  else if dev = 0 then (.english, 1)
  else if lat = 0 then (.hindi, 1)
  else (.hinglish, (max dev lat : ℚ) / (ts.length : ℚ))

/-- Modelled from the spec: `detect(utteranceText, priorLabel,
priorConfidence) → (label, confidence)`; filler-only utterances "return the
prior label unchanged with unchanged confidence". -/
def detect (u : String) (priorLabel : Lang) (priorConfidence : ℚ) : Lang × ℚ :=
  if fillerOnly u then (priorLabel, priorConfidence) else classify u

/-- Modelled from the spec: per-call conversation state touched when an
utterance is processed — booking slots, language label, confidence. -/
structure ConvSession where
  slots : SlotSet
  language : Lang
  confidence : ℚ

/-- Modelled from the spec: processing one finalized utterance —
"filler-only utterances never reach extraction" (§4.2) and leave the language
label and confidence unchanged (§4.1); otherwise the detector runs and the
extraction result is applied to the slots. -/
def processUtterance (sess : ConvSession) (u : String)
    (extract : String → Extraction) : ConvSession :=
  if fillerOnly u then sess
  else
    let lc := detect u sess.language sess.confidence
    { slots := (applyExtraction sess.slots (extract u)).1,
      language := lc.1,
      confidence := lc.2 }

/-! ## Admin Reservations page — party-size input (src/web/src/pages/Reservations.tsx) -/

/-- Digit value of a character in a given base, as JavaScript `parseInt`
accepts it (`0-9`, `a-z`, `A-Z`). -/
def digitValue (base : Nat) (c : Char) : Option Nat :=
  let v :=
    if decide ('0' ≤ c) && decide (c ≤ '9') then some (c.toNat - 48)
    else if decide ('a' ≤ c) && decide (c ≤ 'z') then some (c.toNat - 97 + 10)
    else if decide ('A' ≤ c) && decide (c ≤ 'Z') then some (c.toNat - 65 + 10)
    else none
  match v with
  | some n => if n < base then some n else none
  | none => none

/-- Accumulate leading digits; `none` when no digit was consumed (NaN). -/
def parseIntDigits (base : Nat) : List Char → Nat → Bool → Option Nat
  | [], acc, seen => if seen then some acc else none
  | c :: cs, acc, seen =>
    match digitValue base c with
    | some d => parseIntDigits base cs (acc * base + d) true
    | none => if seen then some acc else none

/-- JavaScript whitespace accepted before the number by `parseInt`. -/
def isJsWs (c : Char) : Bool :=
  c = ' ' || c = '\t' || c = '\n' || c = '\r'

/-- JavaScript `parseInt(s)` with no radix argument: skip leading whitespace,
optional sign, optional `0x`/`0X` hex prefix, then leading digits;
`none` models `NaN`. -/
def jsParseInt (s : String) : Option Int :=
  let cs := s.toList.dropWhile isJsWs
  let signed : Bool × List Char :=
    match cs with
    | '-' :: rest => (true, rest)
    | '+' :: rest => (false, rest)
    | _ => (false, cs)
  let based : Nat × List Char :=
    match signed.2 with
    | '0' :: 'x' :: rest => (16, rest)
    | '0' :: 'X' :: rest => (16, rest)
    | _ => (10, signed.2)
  match parseIntDigits based.1 based.2 0 false with
  | some n => some (if signed.1 then -(n : Int) else (n : Int))
  | none => none

/-- The party-size input's `onChange` handler computes
`parseInt(e.target.value) || 1` (Reservations.tsx line 169): `NaN` and `0`
are falsy and fall back to `1`; any other parsed integer is kept as the
`party_size` that `handleCreateReservation` submits. -/
def partySizeFromInput (s : String) : Int :=
  match jsParseInt s with
  | some n => if n = 0 then 1 else n
  | none => 1

/-! ## Admin Call Logs page — outcome maps (src/unnamed/part_006, CallLogs) -/

/-- The lucide icon components used by the call-logs outcome badge map. -/
inductive OutcomeIcon where
  | CheckCircle
  | AlertTriangle
  | XCircle
deriving Repr, DecidableEq

/-- The `outcomeColors` map from CallLogs: badge color classes keyed by outcome, in
source order. -/
def outcomeColors : List (String × String) :=
  [("resolved", "bg-green-100 text-green-800 dark:bg-green-900 dark:text-green-300"),
   ("fallback", "bg-yellow-100 text-yellow-800 dark:bg-yellow-900 dark:text-yellow-300"),
   ("dropped", "bg-red-100 text-red-800 dark:bg-red-900 dark:text-red-300"),
   ("error", "bg-red-100 text-red-800 dark:bg-red-900 dark:text-red-300"),
   ("privacy_opt_out", "bg-gray-100 text-gray-800 dark:bg-gray-900 dark:text-gray-300")]

/-- The `outcomeIcons` map from CallLogs: icon components keyed by outcome, in source
order. -/
def outcomeIcons : List (String × OutcomeIcon) :=
  [("resolved", .CheckCircle),
   ("fallback", .AlertTriangle),
   ("dropped", .XCircle),
   ("error", .XCircle),
   ("privacy_opt_out", .XCircle)]

/-- The `outcomeOptions` list from CallLogs: the filter option list. -/
def outcomeOptions : List String :=
  ["all", "resolved", "fallback", "dropped", "error", "privacy_opt_out"]

/-- The five call outcomes of the spec (§4.5:
`resolved|fallback|dropped|error|privacy_opt_out`). -/
def specOutcomes : List String :=
  ["resolved", "fallback", "dropped", "error", "privacy_opt_out"]

/-! ## Admin Settings page — operating hours round trip (src/unnamed/part_005) -/

/-- The seven weekdays of the `DAYS` constant in Settings. -/
inductive Weekday where
  | monday
  | tuesday
  | wednesday
  | thursday
  | friday
  | saturday
  | sunday
deriving Repr, DecidableEq

/-- One day's entry of the `OperatingHoursForm` state (`open`/`close` renamed
`openTime`/`closeTime`: `open` is a Lean keyword). -/
structure DayHoursForm where
  openTime : String
  closeTime : String
  closed : Bool
deriving Repr, DecidableEq

/-- One day's value in the API's `operating_hours` record: a string, an object
with optional `open`/`close` members, or some other JSON value (the parse's
final `else` branch). -/
inductive ApiDayHours where
  | str (s : String)
  | obj (openTime closeTime : Option String)
  | otherValue
deriving Repr, DecidableEq

/-- The operating-hours parse in the Settings `useEffect` (part_005 lines
171–187): a string equal to `'closed'` case-insensitively marks the day
closed; an object yields its `open`/`close` members (empty string when
absent); anything else falls back to the `11:00`–`22:30` default. -/
def parseDayHours : Option ApiDayHours → DayHoursForm
  | some (.str s) =>
    if strToLower s = "closed" then ⟨"", "", true⟩
    else ⟨"11:00", "22:30", false⟩
  | some (.obj o c) => ⟨o.getD "", c.getD "", false⟩
  | some .otherValue => ⟨"11:00", "22:30", false⟩
  | none => ⟨"11:00", "22:30", false⟩

/-- The `hoursForApi` serialization in `handleSave` (part_005 lines 192–201):
a closed day becomes the string `'closed'`, an open day an object with its
open and close times. -/
def dayHoursForApi (d : DayHoursForm) : ApiDayHours :=
  if d.closed then .str "closed" else .obj (some d.openTime) (some d.closeTime)

/-- Serializing every weekday of a form state, as the `handleSave` loop does. -/
def hoursForApi (form : Weekday → DayHoursForm) : Weekday → ApiDayHours :=
  fun day => dayHoursForApi (form day)

/-- Re-parsing an API hours record for every weekday, as the `useEffect` loop
does. -/
def parseOperatingHours (api : Weekday → Option ApiDayHours) :
    Weekday → DayHoursForm :=
  fun day => parseDayHours (api day)

/-! ## OIDC sign-in callback redirect (src/web/src/lib/auth.ts) -/

/-- The `onSigninCallback` redirect-target computation (auth.ts lines 28–44):
`returnTo = state?.returnTo || '/'` (absent or empty falls back to `/`), then
any value not starting with `/`, or starting with `//`, is replaced by `/`. -/
def sanitizeReturnTo (stateReturnTo : Option String) : String :=
  let returnTo :=
    match stateReturnTo with
    | some s => if s = "" then "/" else s
    | none => "/"
  if !(strStartsWith returnTo "/") || strStartsWith returnTo "//" then "/"
  else returnTo

/-! ## Business id selection (src/web/src/lib/business.ts) -/

/-- One entry of the `business_ids` claim array: a string, or some non-string
JSON value (dropped by the type-guard filter). -/
inductive ClaimValue where
  | str (s : String)
  | nonString
deriving Repr, DecidableEq

/-- The part of the stored OIDC user that `getBusinessIdFromAuthClaims`
reads: `profile.business_ids` when it is an array (`none` models a missing or
non-array claim). -/
structure StoredUser where
  businessIds : Option (List ClaimValue)

/-- Embedding of `getBusinessIdFromAuthClaims` (business.ts lines 6–37).  `oidcStorage =
none` models both a missing storage entry and a `User.fromStorageString`
parse failure swallowed by the `try/catch`; `selectedStored` is the
session-stored selected business id. -/
def getBusinessIdFromAuthClaims (oidcStorage : Option StoredUser)
    (selectedStored : Option String) : Option String :=
  match oidcStorage with
  | none => none
  | some user =>
    match user.businessIds with
    | none => none
    | some claimsBusinessIds =>
      if claimsBusinessIds.length = 0 then none
      else
        let allowedBusinessIds := claimsBusinessIds.filterMap
          (fun v =>
            match v with
            | .str s => if s.length > 0 then some s else none
            | .nonString => none)
        if allowedBusinessIds.length = 0 then none
        else
          match selectedStored with
          | some selected =>
            if selected != "" && allowedBusinessIds.contains selected then
              some selected
            else allowedBusinessIds.head?
          | none => allowedBusinessIds.head?

/-- The `VITE_BUSINESS_ID` fallback tail of `getBusinessId` (business.ts
lines 60–78): an unset or empty env value throws in production builds and
returns `default` in development builds. -/
def businessIdFallback (viteBusinessId : Option String) (isProd : Bool) :
    Except String String :=
  match viteBusinessId with
  | some businessId =>
    if businessId = "" then
      if isProd then .error "VITE_BUSINESS_ID not configured" else .ok "default"
    else .ok businessId
  | none =>
    if isProd then .error "VITE_BUSINESS_ID not configured" else .ok "default"

/-- Embedding of `getBusinessId` (business.ts lines 54–79): a truthy claim-derived id wins,
otherwise the env fallback runs. -/
def getBusinessId (oidcStorage : Option StoredUser)
    (selectedStored : Option String) (viteBusinessId : Option String)
    (isProd : Bool) : Except String String :=
  match getBusinessIdFromAuthClaims oidcStorage selectedStored with
  | some claimBusinessId =>
    if claimBusinessId = "" then businessIdFallback viteBusinessId isProd
    else .ok claimBusinessId
  | none => businessIdFallback viteBusinessId isProd

/-- The non-empty string entries of the `business_ids` claim (the
`allowedBusinessIds` filter, lifted out for specification). -/
def allowedIdsOf (oidcStorage : Option StoredUser) : List String :=
  match oidcStorage with
  | some user =>
    match user.businessIds with
    | some l =>
      l.filterMap
        (fun v =>
          match v with
          | .str s => if s.length > 0 then some s else none
          | .nonString => none)
    | none => []
  | none => []

/-! ## JWT payload decoding and the role gate
(src/web/src/components/ProtectedRoute.tsx)

`decodeJwtPayload` chains browser primitives (`split`, base64url fixup,
`atob`, percent-decoding to UTF-8, `JSON.parse`) inside one `try/catch` that
turns every failure into `null`.  Each primitive is embedded below as an
`Option`-returning function, so every failure path of the source is a `none`
here.  JSON numbers are kept as their source lexeme (`Json.num`): no claim
inspects numeric values and JavaScript floats are not modelled. -/

/-- JSON values as produced by `JSON.parse`. -/
inductive Json where
  | null
  | bool (b : Bool)
  | num (lexeme : String)
  | str (s : String)
  | arr (elems : List Json)
  | obj (fields : List (String × Json))

/-- Value of a base64 alphabet character. -/
def base64CharVal (c : Char) : Option Nat :=
  if decide ('A' ≤ c) && decide (c ≤ 'Z') then some (c.toNat - 65)
  else if decide ('a' ≤ c) && decide (c ≤ 'z') then some (c.toNat - 97 + 26)
  else if decide ('0' ≤ c) && decide (c ≤ '9') then some (c.toNat - 48 + 52)
  else if c = '+' then some 62
  else if c = '/' then some 63
  else none

/-- Decode a full base64 quantum of four characters into three bytes. -/
def base64Decode4 (a b c d : Char) : Option (List Nat) := do
  let va ← base64CharVal a
  let vb ← base64CharVal b
  let vc ← base64CharVal c
  let vd ← base64CharVal d
  let n := va * 262144 + vb * 4096 + vc * 64 + vd
  pure [n / 65536, n / 256 % 256, n % 256]

/-- Decode a final three-character group into two bytes. -/
def base64Decode3 (a b c : Char) : Option (List Nat) := do
  let va ← base64CharVal a
  let vb ← base64CharVal b
  let vc ← base64CharVal c
  pure [va * 4 + vb / 16, vb % 16 * 16 + vc / 4]

/-- Decode a final two-character group into one byte. -/
def base64Decode2 (a b : Char) : Option (List Nat) := do
  let va ← base64CharVal a
  let vb ← base64CharVal b
  pure [va * 4 + vb / 16]

/-- Decode base64 characters (padding already stripped) into bytes. -/
def base64DecodeChunks : List Char → Option (List Nat)
  | [] => some []
  | [a, b] => base64Decode2 a b
  | [a, b, c] => base64Decode3 a b c
  | a :: b :: c :: d :: rest => do
    let x ← base64Decode4 a b c d
    let xs ← base64DecodeChunks rest
    pure (x ++ xs)
  | [_] => none

/-- The browser `atob` primitive (forgiving-base64 of the HTML standard):
strip ASCII whitespace, strip up to two trailing `=` when the length is a
multiple of four, reject a leftover `=` or a length of 1 mod 4, then decode;
`none` models the thrown `InvalidCharacterError`. -/
def atob (s : String) : Option (List Nat) :=
  let cs := s.toList.filter
    (fun c => !(c = ' ' || c = '\t' || c = '\n' || c = '\r' || c = '\x0c'))
  let cs2 :=
    if cs.length % 4 = 0 then
      match cs.reverse with
      | '=' :: '=' :: rest => rest.reverse
      | '=' :: rest => rest.reverse
      | _ => cs
    else cs
  if cs2.contains '=' then none
  else if cs2.length % 4 = 1 then none
  else base64DecodeChunks cs2

/-- A UTF-8 continuation byte. -/
def isUtf8Cont (b : Nat) : Bool :=
  decide (0x80 ≤ b) && decide (b ≤ 0xBF)

/-- Validating UTF-8 decoding of a byte list; `none` models the `URIError`
thrown by `decodeURIComponent` on a malformed percent-encoded sequence
(overlong forms, surrogates and out-of-range code points rejected). -/
def utf8Decode : List Nat → Option (List Char)
  | [] => some []
  | b1 :: rest =>
    if decide (b1 ≤ 0x7F) then
      match utf8Decode rest with
      | some cs => some (Char.ofNat b1 :: cs)
      | none => none
    else if decide (0xC2 ≤ b1) && decide (b1 ≤ 0xDF) then
      match rest with
      | b2 :: rest2 =>
        if isUtf8Cont b2 then
          match utf8Decode rest2 with
          | some cs => some (Char.ofNat ((b1 - 0xC0) * 64 + (b2 - 0x80)) :: cs)
          | none => none
        else none
      | [] => none
    else if decide (0xE0 ≤ b1) && decide (b1 ≤ 0xEF) then
      match rest with
      | b2 :: b3 :: rest2 =>
        if isUtf8Cont b2 && isUtf8Cont b3 then
          let cp := (b1 - 0xE0) * 4096 + (b2 - 0x80) * 64 + (b3 - 0x80)
          if decide (cp < 0x800) || (decide (0xD800 ≤ cp) && decide (cp ≤ 0xDFFF)) then
            none
          else
            match utf8Decode rest2 with
            | some cs => some (Char.ofNat cp :: cs)
            | none => none
        else none
      | _ => none
    else if decide (0xF0 ≤ b1) && decide (b1 ≤ 0xF4) then
      match rest with
      | b2 :: b3 :: b4 :: rest2 =>
        if isUtf8Cont b2 && isUtf8Cont b3 && isUtf8Cont b4 then
          let cp := (b1 - 0xF0) * 262144 + (b2 - 0x80) * 4096 +
            (b3 - 0x80) * 64 + (b4 - 0x80)
          if decide (cp < 0x10000) || decide (0x10FFFF < cp) then none
          else
            match utf8Decode rest2 with
            | some cs => some (Char.ofNat cp :: cs)
            | none => none
        else none
      | _ => none
    else none

/-- A decimal digit character. -/
def isDigitChar (c : Char) : Bool :=
  decide ('0' ≤ c) && decide (c ≤ '9')

/-- JSON string-literal contents after the opening quote, with escapes;
surrogate escape pairs are combined (a lone surrogate escape, representable
in a JavaScript string but not as a Lean `Char`, is rejected — stricter than
`JSON.parse` only on that corner). -/
def parseStringContents : List Char → List Char → Option (String × List Char)
  | '"' :: rest, acc => some (String.mk acc.reverse, rest)
  | '\\' :: '"' :: rest, acc => parseStringContents rest ('"' :: acc)
  | '\\' :: '\\' :: rest, acc => parseStringContents rest ('\\' :: acc)
  | '\\' :: '/' :: rest, acc => parseStringContents rest ('/' :: acc)
  | '\\' :: 'b' :: rest, acc => parseStringContents rest ('\x08' :: acc)
  | '\\' :: 'f' :: rest, acc => parseStringContents rest ('\x0c' :: acc)
  | '\\' :: 'n' :: rest, acc => parseStringContents rest ('\n' :: acc)
  | '\\' :: 'r' :: rest, acc => parseStringContents rest ('\r' :: acc)
  | '\\' :: 't' :: rest, acc => parseStringContents rest ('\t' :: acc)
  | '\\' :: 'u' :: h1 :: h2 :: h3 :: h4 :: rest, acc =>
    (match digitValue 16 h1, digitValue 16 h2, digitValue 16 h3, digitValue 16 h4 with
     | some a, some b, some c, some d =>
       let cp := a * 4096 + b * 256 + c * 16 + d
       if decide (0xD800 ≤ cp) && decide (cp ≤ 0xDBFF) then
         match rest with
         | '\\' :: 'u' :: g1 :: g2 :: g3 :: g4 :: rest2 =>
           (match digitValue 16 g1, digitValue 16 g2, digitValue 16 g3, digitValue 16 g4 with
            | some a2, some b2, some c2, some d2 =>
              let cp2 := a2 * 4096 + b2 * 256 + c2 * 16 + d2
              if decide (0xDC00 ≤ cp2) && decide (cp2 ≤ 0xDFFF) then
                parseStringContents rest2
                  (Char.ofNat (0x10000 + (cp - 0xD800) * 1024 + (cp2 - 0xDC00)) :: acc)
              else none
            | _, _, _, _ => none)
         | _ => none
       else if decide (0xDC00 ≤ cp) && decide (cp ≤ 0xDFFF) then none
       else parseStringContents rest (Char.ofNat cp :: acc)
     | _, _, _, _ => none)
  | '\\' :: _, _ => none
  | c :: rest, acc =>
    if decide (c.toNat < 0x20) then none
    else parseStringContents rest (c :: acc)
  | [], _ => none

/-- Optional JSON fraction part, returned as its lexeme. -/
def parseJsonFrac : List Char → Option (List Char × List Char)
  | '.' :: r =>
    let p := r.span isDigitChar
    if p.1 = [] then none else some ('.' :: p.1, p.2)
  | cs => some ([], cs)

/-- Digits of a JSON exponent after `e`/`E` and an optional sign. -/
def parseJsonExpDigits (pre : List Char) (r : List Char) :
    Option (List Char × List Char) :=
  let p := r.span isDigitChar
  if p.1 = [] then none else some (pre ++ p.1, p.2)

/-- Optional sign of a JSON exponent. -/
def parseJsonExpTail (e : Char) : List Char → Option (List Char × List Char)
  | '+' :: r => parseJsonExpDigits [e, '+'] r
  | '-' :: r => parseJsonExpDigits [e, '-'] r
  | r => parseJsonExpDigits [e] r

/-- Optional JSON exponent part, returned as its lexeme. -/
def parseJsonExp : List Char → Option (List Char × List Char)
  | 'e' :: r => parseJsonExpTail 'e' r
  | 'E' :: r => parseJsonExpTail 'E' r
  | cs => some ([], cs)

/-- A JSON number per the JSON grammar, returned as its lexeme. -/
def parseJsonNumber (cs : List Char) : Option (String × List Char) :=
  let negSplit : List Char × List Char :=
    match cs with
    | '-' :: rest => (['-'], rest)
    | _ => ([], cs)
  match negSplit.2 with
  | '0' :: rest => do
    let fr ← parseJsonFrac rest
    let ex ← parseJsonExp fr.2
    pure (String.mk (negSplit.1 ++ ['0'] ++ fr.1 ++ ex.1), ex.2)
  | c :: rest =>
    if decide ('1' ≤ c) && decide (c ≤ '9') then do
      let p := rest.span isDigitChar
      let fr ← parseJsonFrac p.2
      let ex ← parseJsonExp fr.2
      pure (String.mk (negSplit.1 ++ (c :: p.1) ++ fr.1 ++ ex.1), ex.2)
    else none
  | [] => none

/-- JSON insignificant whitespace. -/
def skipJsonWs (cs : List Char) : List Char :=
  cs.dropWhile (fun c => c = ' ' || c = '\t' || c = '\n' || c = '\r')

mutual

/-- Fuel-indexed JSON value parser; the fuel bounds nesting depth and every
consumer supplies more fuel than the input length. -/
def parseJsonValue : Nat → List Char → Option (Json × List Char)
  | 0, _ => none
  | Nat.succ fuel, cs =>
    match skipJsonWs cs with
    | 't' :: 'r' :: 'u' :: 'e' :: rest => some (.bool true, rest)
    | 'f' :: 'a' :: 'l' :: 's' :: 'e' :: rest => some (.bool false, rest)
    | 'n' :: 'u' :: 'l' :: 'l' :: rest => some (.null, rest)
    | '"' :: rest =>
      match parseStringContents rest [] with
      | some (s, rest2) => some (.str s, rest2)
      | none => none
    | '[' :: rest =>
      (match skipJsonWs rest with
       | ']' :: rest2 => some (.arr [], rest2)
       | _ =>
         match parseJsonArrayItems fuel rest with
         | some (vs, rest2) => some (.arr vs, rest2)
         | none => none)
    | '{' :: rest =>
      (match skipJsonWs rest with
       | '}' :: rest2 => some (.obj [], rest2)
       | _ =>
         match parseJsonObjectItems fuel rest with
         | some (ms, rest2) => some (.obj ms, rest2)
         | none => none)
    | other =>
      match parseJsonNumber other with
      | some (lex, rest) => some (.num lex, rest)
      | none => none

/-- One-or-more array elements, positioned after `[` or `,`. -/
def parseJsonArrayItems : Nat → List Char → Option (List Json × List Char)
  | 0, _ => none
  | Nat.succ fuel, cs =>
    match parseJsonValue fuel cs with
    | some (v, rest) =>
      (match skipJsonWs rest with
       | ',' :: rest2 =>
         (match parseJsonArrayItems fuel rest2 with
          | some (vs, rest3) => some (v :: vs, rest3)
          | none => none)
       | ']' :: rest2 => some ([v], rest2)
       | _ => none)
    | none => none

/-- One-or-more object members, positioned after `{` or `,`. -/
def parseJsonObjectItems : Nat → List Char →
    Option (List (String × Json) × List Char)
  | 0, _ => none
  | Nat.succ fuel, cs =>
    match skipJsonWs cs with
    | '"' :: rest =>
      (match parseStringContents rest [] with
       | some (key, rest2) =>
         (match skipJsonWs rest2 with
          | ':' :: rest3 =>
            (match parseJsonValue fuel rest3 with
             | some (v, rest4) =>
               (match skipJsonWs rest4 with
                | ',' :: rest5 =>
                  (match parseJsonObjectItems fuel rest5 with
                   | some (ms, rest6) => some ((key, v) :: ms, rest6)
                   | none => none)
                | '}' :: rest5 => some ([(key, v)], rest5)
                | _ => none)
             | none => none)
          | _ => none)
       | none => none)
    | _ => none

end

/-- The `JSON.parse` primitive: a single JSON value surrounded only by whitespace. -/
def jsonParse (s : String) : Option Json :=
  match parseJsonValue (s.length + 1) s.toList with
  | some (v, rest) => if skipJsonWs rest = [] then some v else none
  | none => none

/-- ProtectedRoute.tsx lines 19–31 applied to the payload segment: base64url
to base64 character fixup, `=`-padding, `atob`, UTF-8 decode, `JSON.parse` —
`none` at any stage models the caught exception. -/
def base64UrlToBase64 (payload : String) : String :=
  String.mk (payload.toList.map
    (fun c => if c = '-' then '+' else if c = '_' then '/' else c))

/-- The `payload += '='.repeat(padding)` step (line 21–22). -/
def addBase64Padding (payload : String) : String :=
  payload ++ String.mk (List.replicate ((4 - payload.length % 4) % 4) '=')

/-- The decode pipeline of `decodeJwtPayload` applied to one payload part. -/
def decodePayloadSegment (p : String) : Option Json :=
  match atob (addBase64Padding (base64UrlToBase64 p)) with
  | some bytes =>
    match utf8Decode bytes with
    | some chars => jsonParse (String.mk chars)
    | none => none
  | none => none

/-- Embedding of `decodeJwtPayload` (ProtectedRoute.tsx lines 14–36): split on `.`, demand
exactly three parts, decode the middle one; every failure is `null`. -/
def decodeJwtPayload (token : String) : Option Json :=
  match jsSplit '.' token with
  | [_, p1, _] => decodePayloadSegment p1
  | _ => none

/-- Member lookup on a parsed JSON object; `JSON.parse` keeps the last
binding of a duplicated key. -/
def jsonLookup (fields : List (String × Json)) (key : String) : Option Json :=
  (fields.filterMap (fun p => if p.1 = key then some p.2 else none)).getLast?

/-- Embedding of `getRolesFromAccessToken` (lines 42–48): `[]` for a missing token, an
undecodable token, a non-object payload, a missing or non-object
`realm_access`, or a missing `roles` member.  (A `roles` member that is not
an array — impossible for the Keycloak claim the code reads — is also
modelled as `[]`.) -/
def getRolesFromAccessToken (accessToken : Option String) : List Json :=
  match accessToken with
  | none => []
  | some token =>
    match decodeJwtPayload token with
    | some (.obj fields) =>
      (match jsonLookup fields "realm_access" with
       | some (.obj raFields) =>
         (match jsonLookup raFields "roles" with
          | some (.arr roles) => roles
          | _ => [])
       | _ => [])
    | _ => []

/-- What the role gate renders. -/
inductive RouteOutcome where
  | outlet
  | navigateUnauthorized
deriving Repr, DecidableEq

/-- The role-based access block of `ProtectedRoute` (lines 97–104), reached
once authenticated: with a non-empty required-role list, render the outlet
only when some required role occurs among the token's roles (JavaScript `===`
between a string and a JSON value), else navigate to `/unauthorized`. -/
def roleGate (roles : Option (List String)) (accessToken : Option String) :
    RouteOutcome :=
  match roles with
  | some rs =>
    if rs.length > 0 then
      let userRoles := getRolesFromAccessToken accessToken
      if rs.any (fun role =>
          userRoles.any (fun j =>
            match j with
            | .str s => s == role
            | _ => false)) then
        .outlet
      else .navigateUnauthorized
    else .outlet
  | none => .outlet

/-! ## Theorems -/

/-- C1: the availability check evaluates its five rules in the fixed order
closed-date/closed-weekday, operating-hours window, advance-booking bounds,
party-size limits, capacity; it returns the rejection code of the first
failing check without evaluating later checks (`rejected-closed`,
`rejected-outside-hours`, `rejected-too-soon`, `rejected-party-too-large`,
`rejected-capacity` respectively), returns `available` when all five pass,
and mutates nothing. -/
theorem check_rule_order (r : BusinessRuleSet) (bookings : List Booking)
    (now date time size : Nat) (st : EngineState) :
    (check r bookings now date time size =
      if closedFail r date then .rejectedClosed
      else if hoursFail r date time then .rejectedOutsideHours
      else if advanceFail r now date time then .rejectedTooSoon
      else if partyFail r time size then .rejectedPartyTooLarge
      else if capacityFail r bookings date time size then
        .rejectedCapacity (suggestions r bookings date time size)
      else .available)
    ∧ (checkInSession st now date time size).2 = st :=
  ⟨rfl, rfl⟩

/-- C6: the availability check is a pure, deterministic function of its
arguments: consulting it twice in sequence with identical arguments yields
identical results, the session state is unchanged by each call, and the
result is exactly the function `check` of rules, bookings and request. -/
theorem check_deterministic (st : EngineState) (now date time size : Nat) :
    ((checkInSession st now date time size).1 =
      (checkInSession (checkInSession st now date time size).2 now date time size).1)
    ∧ (checkInSession (checkInSession st now date time size).2 now date time size).2 = st
    ∧ (checkInSession st now date time size).1 =
      check st.rules st.bookings now date time size :=
  ⟨rfl, rfl, rfl⟩

/-- C2: after any finite sequence of extractions, a slot field holds the last
asserted value for it (falling back to the initial value when never
asserted), and a field absent from an extraction is left untouched by it. -/
theorem slot_last_write_wins (s : SlotSet) (es : List Extraction) (f : SlotField) :
    (applySeq s es f =
      match lastAsserted es f with
      | some v => some v
      | none => s f)
    ∧ ∀ e : Extraction, e f = none → (applyExtraction s e).1 f = s f := by
  constructor
  · induction es generalizing s with
    | nil => rfl
    | cons e rest ih =>
      have h1 : applySeq s (e :: rest) = applySeq ((applyExtraction s e).1) rest := rfl
      rw [h1, ih ((applyExtraction s e).1)]
      show (match lastAsserted rest f with
            | some v => some v
            | none => (applyExtraction s e).1 f) =
        (match lastAsserted (e :: rest) f with
          | some v => some v
          | none => s f)
      show _ = (match (match lastAsserted rest f with
                        | some v => some v
                        | none => e f) with
                 | some v => some v
                 | none => s f)
      cases hl : lastAsserted rest f with
      | some v => rfl
      | none =>
        show (applyExtraction s e).1 f = _
        cases he : e f with
        | some v => simp [applyExtraction, he]
        | none => simp [applyExtraction, he]
  · intro e he
    simp [applyExtraction, he]

/-- An empty slot set. -/
def exSlotSet : SlotSet := fun _ => none

/-- An extraction asserting party size 4 ("4 log"). -/
def exExtract4 : Extraction :=
  fun f => if f = SlotField.partySize then some (.int 4) else none

/-- A correcting extraction asserting party size 6 ("actually 6 log"). -/
def exExtract6 : Extraction :=
  fun f => if f = SlotField.partySize then some (.int 6) else none

/-- An extraction mentioning no field. -/
def exAbsent : Extraction := fun _ => none

/-- Witness for C2 at the spec's own scenario: "4 log" then "actually 6 log"
ends with party size 6, and an extraction not mentioning the field leaves it
untouched. -/
theorem slot_last_write_wins_witness :
    (applySeq exSlotSet [exExtract4, exExtract6] SlotField.partySize =
      match lastAsserted [exExtract4, exExtract6] SlotField.partySize with
      | some v => some v
      | none => exSlotSet SlotField.partySize)
    ∧ (applyExtraction exSlotSet exAbsent).1 SlotField.partySize =
      exSlotSet SlotField.partySize := by
  have h := slot_last_write_wins exSlotSet [exExtract4, exExtract6] SlotField.partySize
  exact ⟨h.1, h.2 exAbsent rfl⟩

/-- C7: processing an utterance composed solely of stoplisted filler tokens
changes nothing — the conversation session (slots, language label,
confidence) is returned unchanged, and the detector returns the prior label
with the prior confidence. -/
theorem filler_only_no_change (sess : ConvSession) (u : String)
    (extract : String → Extraction) (l : Lang) (c : ℚ)
    (h : fillerOnly u = true) :
    processUtterance sess u extract = sess ∧ detect u l c = (l, c) := by
  constructor
  · simp [processUtterance, h]
  · simp [detect, h]

/-- An example session before a filler-only utterance. -/
def exSession : ConvSession := ⟨exSlotSet, Lang.english, (9 : ℚ) / 10⟩

/-- Witness for C7 at the filler-only utterance "haan ok hmm". -/
theorem filler_only_no_change_witness :
    processUtterance exSession "haan ok hmm" (fun _ => exAbsent) = exSession ∧
      detect "haan ok hmm" Lang.english ((9 : ℚ) / 10) =
        (Lang.english, (9 : ℚ) / 10) :=
  filler_only_no_change exSession "haan ok hmm" (fun _ => exAbsent)
    Lang.english ((9 : ℚ) / 10) (by decide)

/-- C3 (code bug): the Add Reservation form's party-size parse does not keep
the submitted value at least 1 — typing `-3` submits `party_size = -3`,
because `parseInt('-3') = -3` is truthy so the `|| 1` fallback never applies;
the fallback does yield 1 for empty, non-numeric and zero input. -/
theorem partySize_negative_input :
    partySizeFromInput "-3" = -3 ∧ partySizeFromInput "-3" < 1
    ∧ partySizeFromInput "" = 1 ∧ partySizeFromInput "abc" = 1
    ∧ partySizeFromInput "0" = 1 := by
  refine ⟨rfl, by decide, rfl, rfl, rfl⟩

/-- C4: the Call Logs page handles exactly the five spec outcomes — the
filter option list is `all` followed by exactly the spec outcomes, and the
badge-color and icon maps are keyed by exactly that five-element list. -/
theorem callLogs_outcomes_exact :
    outcomeOptions = "all" :: specOutcomes
    ∧ outcomeColors.map Prod.fst = specOutcomes
    ∧ outcomeIcons.map Prod.fst = specOutcomes :=
  ⟨rfl, rfl, rfl⟩

/-- C5: serializing an operating-hours form state to the API shape and
re-parsing it restores the closed flag of every weekday, and for every
weekday not marked closed also restores the open and close time strings. -/
theorem operatingHours_round_trip (form : Weekday → DayHoursForm) (day : Weekday) :
    ((parseOperatingHours (fun d => some (hoursForApi form d)) day).closed =
      (form day).closed)
    ∧ ((form day).closed = false →
        (parseOperatingHours (fun d => some (hoursForApi form d)) day).openTime =
            (form day).openTime
          ∧ (parseOperatingHours (fun d => some (hoursForApi form d)) day).closeTime =
            (form day).closeTime) := by
  cases h : (form day).closed with
  | true =>
    constructor
    · simp [parseOperatingHours, hoursForApi, dayHoursForApi, parseDayHours, h]
      decide
    · intro hfalse
      exact absurd hfalse (by decide)
  | false =>
    constructor
    · simp [parseOperatingHours, hoursForApi, dayHoursForApi, parseDayHours, h]
    · intro _
      constructor
      · simp [parseOperatingHours, hoursForApi, dayHoursForApi, parseDayHours, h]
      · simp [parseOperatingHours, hoursForApi, dayHoursForApi, parseDayHours, h]

/-- An example operating-hours form: Monday closed, other days open. -/
def exHoursForm : Weekday → DayHoursForm :=
  fun d => if d = Weekday.monday then ⟨"", "", true⟩ else ⟨"11:00", "22:30", false⟩

/-- Witness for C5 at a concrete form state and the open weekday Tuesday. -/
theorem operatingHours_round_trip_witness :
    ((parseOperatingHours (fun d => some (hoursForApi exHoursForm d)) Weekday.tuesday).closed =
      (exHoursForm Weekday.tuesday).closed)
    ∧ (parseOperatingHours (fun d => some (hoursForApi exHoursForm d)) Weekday.tuesday).openTime =
      (exHoursForm Weekday.tuesday).openTime
    ∧ (parseOperatingHours (fun d => some (hoursForApi exHoursForm d)) Weekday.tuesday).closeTime =
      (exHoursForm Weekday.tuesday).closeTime := by
  have h := operatingHours_round_trip exHoursForm Weekday.tuesday
  exact ⟨h.1, (h.2 rfl).1, (h.2 rfl).2⟩

/-- C8: the sign-in callback's redirect target always starts with `/`, never
starts with `//`, and any `returnTo` not beginning with a single `/` (absolute
URLs, protocol-relative URLs, anything else) is replaced by `/`. -/
theorem signin_redirect_safe (st : Option String) :
    (strStartsWith (sanitizeReturnTo st) "/" = true)
    ∧ (strStartsWith (sanitizeReturnTo st) "//" = false)
    ∧ (∀ s, st = some s →
        (strStartsWith s "/" = false ∨ strStartsWith s "//" = true) →
        sanitizeReturnTo st = "/") := by
  have guard : ∀ r : String,
      (strStartsWith
          (if !(strStartsWith r "/") || strStartsWith r "//" then "/" else r) "/" = true)
      ∧ (strStartsWith
          (if !(strStartsWith r "/") || strStartsWith r "//" then "/" else r) "//" = false) := by
    intro r
    by_cases hc : (!(strStartsWith r "/") || strStartsWith r "//") = true
    · rw [if_pos hc]
      exact ⟨by decide, by decide⟩
    · rw [if_neg hc]
      have hb := Bool.eq_false_iff.mpr hc
      rw [Bool.or_eq_false_iff] at hb
      refine ⟨?_, hb.2⟩
      have := hb.1
      rwa [Bool.not_eq_false'] at this
  have hval : sanitizeReturnTo st =
      (if !(strStartsWith (match st with
              | some s => if s = "" then "/" else s
              | none => "/") "/") ||
          strStartsWith (match st with
              | some s => if s = "" then "/" else s
              | none => "/") "//" then "/"
       else (match st with
              | some s => if s = "" then "/" else s
              | none => "/")) := rfl
  refine ⟨?_, ?_, ?_⟩
  · rw [hval]; exact (guard _).1
  · rw [hval]; exact (guard _).2
  · intro s hs hbad
    subst hs
    by_cases he : s = ""
    · subst he
      rfl
    · have hm : (match (some s : Option String) with
          | some t => if t = "" then "/" else t
          | none => "/") = s := by
        simp [he]
      rw [hval, hm]
      rcases hbad with hb | hb
      · rw [hb]
        rfl
      · rw [hb]
        cases hp : strStartsWith s "/" <;> rfl

/-- Witness for C8: an absolute URL and a protocol-relative URL both redirect
to `/`. -/
theorem signin_redirect_safe_witness :
    (strStartsWith (sanitizeReturnTo (some "https://evil.example")) "/" = true)
    ∧ (strStartsWith (sanitizeReturnTo (some "https://evil.example")) "//" = false)
    ∧ sanitizeReturnTo (some "https://evil.example") = "/"
    ∧ sanitizeReturnTo (some "//evil.example") = "/" := by
  have h₁ := signin_redirect_safe (some "https://evil.example")
  have h₂ := signin_redirect_safe (some "//evil.example")
  exact ⟨h₁.1, h₁.2.1,
    h₁.2.2 "https://evil.example" rfl (Or.inl (by decide)),
    h₂.2.2 "//evil.example" rfl (Or.inr (by decide))⟩

/-- The env fallback never surfaces an empty business id. -/
lemma businessIdFallback_ne_empty (vite : Option String) (prod : Bool)
    (v : String) (hv : businessIdFallback vite prod = .ok v) : v ≠ "" := by
  intro hveq
  subst hveq
  cases vite with
  | none =>
    cases prod with
    | true => simp [businessIdFallback] at hv
    | false => simp [businessIdFallback] at hv
  | some s =>
    by_cases hs : s = ""
    · subst hs
      cases prod with
      | true => simp [businessIdFallback] at hv
      | false => simp [businessIdFallback] at hv
    · simp only [businessIdFallback, if_neg hs] at hv
      injection hv with hv2
      exact hs hv2

/-- The selected-vs-first-allowed choice of `getBusinessIdFromAuthClaims`,
characterized over the filtered id list. -/
lemma selection_characterization (allowed : List String) (sel : Option String) :
    (if allowed.length = 0 then none
     else
       match sel with
       | some selected =>
         if selected != "" && allowed.contains selected then some selected
         else allowed.head?
       | none => allowed.head?) =
    (match allowed with
     | [] => none
     | a :: _ =>
       some (match sel with
             | some selected =>
               if selected != "" && allowed.contains selected then selected
               else a
             | none => a)) := by
  cases allowed with
  | nil => rfl
  | cons a rest =>
    rw [if_neg (by simp)]
    cases sel with
    | none => rfl
    | some selected =>
      show (if (selected != "" && (a :: rest).contains selected) = true then some selected
            else (a :: rest).head?) =
        some (if (selected != "" && (a :: rest).contains selected) = true then selected
              else a)
      by_cases hsel : (selected != "" && (a :: rest).contains selected) = true
      · rw [if_pos hsel, if_pos hsel]
      · rw [if_neg hsel, if_neg hsel]
        rfl

/-- C9: `getBusinessId` never returns an empty string; the claim-derived id is
the session-stored selection exactly when it is among the non-empty string
entries of the `business_ids` claim, and otherwise the first such entry; with
no usable claim entry the env fallback runs, which returns a non-empty
`VITE_BUSINESS_ID`, and with that unset or empty errors in production and
returns `default` in development. -/
theorem getBusinessId_spec (oidcStorage : Option StoredUser)
    (selectedStored viteBusinessId : Option String) (isProd : Bool) :
    (∀ v, getBusinessId oidcStorage selectedStored viteBusinessId isProd = .ok v →
      v ≠ "")
    ∧ (getBusinessIdFromAuthClaims oidcStorage selectedStored =
        match allowedIdsOf oidcStorage with
        | [] => none
        | a :: _ =>
          some (match selectedStored with
                | some sel =>
                  if sel != "" && (allowedIdsOf oidcStorage).contains sel then sel
                  else a
                | none => a))
    ∧ (getBusinessIdFromAuthClaims oidcStorage selectedStored = none →
        getBusinessId oidcStorage selectedStored viteBusinessId isProd =
          businessIdFallback viteBusinessId isProd)
    ∧ (∀ s, viteBusinessId = some s → s ≠ "" →
        businessIdFallback viteBusinessId isProd = .ok s)
    ∧ ((viteBusinessId = none ∨ viteBusinessId = some "") →
        businessIdFallback viteBusinessId isProd =
          if isProd then .error "VITE_BUSINESS_ID not configured"
          else .ok "default") := by
  refine ⟨?_, ?_, ?_, ?_, ?_⟩
  · intro v hv
    rcases hc : getBusinessIdFromAuthClaims oidcStorage selectedStored with _ | c
    · simp only [getBusinessId, hc] at hv
      exact businessIdFallback_ne_empty _ _ _ hv
    · simp only [getBusinessId, hc] at hv
      by_cases hce : c = ""
      · rw [if_pos hce] at hv
        exact businessIdFallback_ne_empty _ _ _ hv
      · rw [if_neg hce] at hv
        injection hv with hv2
        rw [← hv2]
        exact hce
  · cases oidcStorage with
    | none => rfl
    | some user =>
      rcases hb : user.businessIds with _ | l
      · simp [getBusinessIdFromAuthClaims, allowedIdsOf, hb]
      · simp only [getBusinessIdFromAuthClaims, allowedIdsOf, hb]
        by_cases hl : l.length = 0
        · have hnil : l = [] := List.length_eq_zero.mp hl
          subst hnil
          rfl
        · rw [if_neg hl]
          exact selection_characterization _ selectedStored
  · intro hnone
    simp only [getBusinessId, hnone]
  · intro s hs hne
    subst hs
    simp [businessIdFallback, hne]
  · intro hOr
    rcases hOr with hn | he
    · subst hn
      rfl
    · subst he
      simp [businessIdFallback]

/-- A stored user whose `business_ids` claim mixes a usable id, a non-string
entry and an empty string. -/
def exUser : StoredUser := ⟨some [.str "biz1", .nonString, .str ""]⟩

/-- Witness for C9: with a selection not among the claim ids the first
allowed id `biz1` (non-empty) is used; with no claims the env value wins; with
nothing configured, production errors. -/
theorem getBusinessId_spec_witness :
    ("biz1" : String) ≠ ""
    ∧ getBusinessId none none (some "envbiz") true = .ok "envbiz"
    ∧ businessIdFallback none true = .error "VITE_BUSINESS_ID not configured" := by
  have h₁ := getBusinessId_spec (some exUser) (some "nope") (some "envbiz") true
  have h₂ := getBusinessId_spec none none (some "envbiz") true
  have h₃ := getBusinessId_spec none none none true
  refine ⟨h₁.1 "biz1" rfl, ?_, ?_⟩
  · have hfb := h₂.2.2.1 rfl
    have hok := h₂.2.2.2.1 "envbiz" rfl (by decide)
    exact hfb.trans hok
  · have := h₃.2.2.2.2 (Or.inl rfl)
    simpa using this

/-- C10: `decodeJwtPayload` returns `null` for every string that does not
split into exactly three dot-separated parts, and for every three-part token
whose payload segment fails base64url/UTF-8/JSON decoding; consequently
`getRolesFromAccessToken` returns the empty list for a missing or malformed
access token, and a route guarded with a non-empty role list then navigates
to the unauthorized page. -/
theorem jwt_decode_safe (s hd pt sg : String) (rs : List String)
    (tok : Option String) :
    ((jsSplit '.' s).length ≠ 3 → decodeJwtPayload s = none)
    ∧ (jsSplit '.' s = [hd, pt, sg] → decodePayloadSegment pt = none →
        decodeJwtPayload s = none)
    ∧ getRolesFromAccessToken none = []
    ∧ (decodeJwtPayload s = none → getRolesFromAccessToken (some s) = [])
    ∧ (rs ≠ [] → getRolesFromAccessToken tok = [] →
        roleGate (some rs) tok = .navigateUnauthorized) := by
  refine ⟨?_, ?_, rfl, ?_, ?_⟩
  · intro hlen
    rcases hsp : jsSplit '.' s with _ | ⟨a, l1⟩
    · simp [decodeJwtPayload, hsp]
    · rcases l1 with _ | ⟨b, l2⟩
      · simp [decodeJwtPayload, hsp]
      · rcases l2 with _ | ⟨c, l3⟩
        · simp [decodeJwtPayload, hsp]
        · rcases l3 with _ | ⟨d, l4⟩
          · exact absurd (by rw [hsp]; rfl) hlen
          · simp [decodeJwtPayload, hsp]
  · intro hsp hdec
    simp [decodeJwtPayload, hsp, hdec]
  · intro hnone
    simp [getRolesFromAccessToken, hnone]
  · intro hrs hroles
    rcases rs with _ | ⟨r0, rs2⟩
    · exact absurd rfl hrs
    · simp [roleGate, hroles]

/-- Witness for C10: a dotless string and a three-part token with an invalid
base64url payload both decode to `null`; a garbage token grants no roles and
an admin-guarded route navigates to the unauthorized page. -/
theorem jwt_decode_safe_witness :
    decodeJwtPayload "not-a-jwt" = none
    ∧ decodeJwtPayload "a.!!!.b" = none
    ∧ getRolesFromAccessToken none = []
    ∧ getRolesFromAccessToken (some "not-a-jwt") = []
    ∧ roleGate (some ["admin"]) (some "garbage") = .navigateUnauthorized := by
  have h₁ := jwt_decode_safe "not-a-jwt" "" "" "" ["admin"] (some "garbage")
  have h₂ := jwt_decode_safe "a.!!!.b" "a" "!!!" "b" ["admin"] (some "garbage")
  refine ⟨h₁.1 (by decide), h₂.2.1 rfl rfl, h₁.2.2.1, h₁.2.2.2.1 (h₁.1 (by decide)),
    h₁.2.2.2.2 (by decide) rfl⟩

end Vartalaap
